import Mathlib

/-!
Shallow embedding of the radial countdown-timer engine of jorenvo/timer
(the custom-element variant `src/timer.ts` and the near-identical
plain-wrapper variant).  Real-valued JS numbers are modelled as real
numbers; the interval scheduler (`setInterval` / `clearTimeout`) is
modelled as an explicit pool of interval ids; drawing calls that have
no effect on engine state are modelled only through the observable
draw operations the claims talk about (mark widths and numeral labels).
-/

namespace Timer

noncomputable section

/-- The 2-D point value type of the source (class `Coordinate`). -/
structure Coordinate where
  x : ℝ
  y : ℝ

/-- Method `scale(n)`: multiplies both components by `n`. -/
def Coordinate.scale (c : Coordinate) (n : ℝ) : Coordinate :=
  ⟨c.x * n, c.y * n⟩

/-- Single-argument overload `translate(n)`: adds `n` to both components. -/
def Coordinate.translate1 (c : Coordinate) (n : ℝ) : Coordinate :=
  ⟨c.x + n, c.y + n⟩

/-- Two-argument overload `translate(x, y)`: adds componentwise. -/
def Coordinate.translate2 (c : Coordinate) (dx dy : ℝ) : Coordinate :=
  ⟨c.x + dx, c.y + dy⟩

/-- Method `expand_to(max)`: scales from a range of [-1, 1] to [0, max],
implemented in the source as `translate(1)` then `scale(0.5 * max)`. -/
def Coordinate.expand_to (c : Coordinate) (max : ℝ) : Coordinate :=
  (c.translate1 1).scale (0.5 * max)

/-- Method `seconds_to_radians`: `((secs / 60) * Math.PI) / 30`. -/
def seconds_to_radians (secs : ℝ) : ℝ :=
  secs / 60 * Real.pi / 30

/-- Method `radians_to_seconds`: `rads * (60 / (2 * Math.PI)) * 60`. -/
def radians_to_seconds (rads : ℝ) : ℝ :=
  rads * (60 / (2 * Real.pi)) * 60

/-- The normalization loop of `set_remaining_seconds`:
`while (s < 0) { s += 60 * 60; }` — add hours until positive,
to deal with zero crossings. -/
def add_hours_until_positive (s : ℝ) : ℝ :=
  if h : s < 0 then add_hours_until_positive (s + 60 * 60) else s
termination_by (⌈-s / (60 * 60)⌉).toNat
decreasing_by
  have h2 : (0:ℝ) < -s / (60 * 60) := div_pos (by linarith) (by norm_num)
  have h3 : (0:ℤ) < ⌈-s / (60 * 60)⌉ := Int.ceil_pos.mpr h2
  have h4 : -(s + 60 * 60) / (60 * 60) = -s / (60 * 60) - 1 := by ring
  rw [h4, Int.ceil_sub_one]
  omega

/-- JavaScript truncation toward zero of a finite number. -/
def jsTrunc (x : ℝ) : ℤ :=
  if x < 0 then ⌈x⌉ else ⌊x⌋

/-- JavaScript remainder `a % b` on finite numbers with `b > 0`:
`a - b * trunc(a / b)`, keeping the sign of `a`. -/
def jsRem (a b : ℝ) : ℝ :=
  a - b * jsTrunc (a / b)

/-- The mutable fields of class `TimerCanvas` (both variants have the same
fields; `width` and `height` are the canvas backing-store size, which the
DOM exposes on the element itself). -/
structure TimerState where
  width : ℝ
  height : ℝ
  center : Coordinate
  needs_full_render : Bool
  animation_timer : Option ℕ
  prev_render_ms : ℝ
  remaining_seconds : ℝ
  time_radians : ℝ
  drag_starting_angle : Option ℝ
  drag_starting_remaining_seconds : Option ℝ

/-- The browser interval scheduler: the pool of currently live interval
ids together with the next id `window.setInterval` will hand out. -/
structure Sched where
  active : List ℕ
  next_id : ℕ

/-- `clearTimeout(id)`: cancels the scheduled callback with that id
(a no-op on `undefined`; browsers share the id pool between timeouts
and intervals, so this also cancels intervals). -/
def Sched.clearTimeout (sch : Sched) (i : Option ℕ) : Sched :=
  match i with
  | none => sch
  | some i => { sch with active := sch.active.erase i }

/-- `window.setInterval(cb, 200)`: registers a live interval and returns
its fresh id. -/
def Sched.setInterval (sch : Sched) : Sched × ℕ :=
  ({ active := sch.next_id :: sch.active, next_id := sch.next_id + 1 }, sch.next_id)

/-- The whole observable system: engine state, scheduler, and a count of
completed `render()` calls (the observable the spec uses to count render
invocations). -/
structure Sys where
  ts : TimerState
  sched : Sched
  renders : ℕ

/-- Method `set_remaining_seconds(s)`: normalize by the zero-crossing
loop, store the result and recompute `time_radians`. -/
def TimerState.set_remaining_seconds (ts : TimerState) (s : ℝ) : TimerState :=
  let s := add_hours_until_positive s
  { ts with remaining_seconds := s, time_radians := seconds_to_radians s }

/-- Method `setup_resolution()`: when the backing-store size differs from
the client size, set `width := clientWidth`, `height := clientWidth`
(the source assigns `clientWidth` to both), recompute `center`, clear the
surface and request a full render. -/
def TimerState.setup_resolution (ts : TimerState)
    (client_width client_height : ℝ) : TimerState :=
  if ts.width ≠ client_width ∨ ts.height ≠ client_height then
    { ts with
      width := client_width
      height := client_width
      center := ⟨client_width / 2, client_width / 2⟩
      needs_full_render := true }
  else ts

/-- A numeral label drawn by `render_clock` via `fillText`. -/
structure MarkLabel where
  value : ℕ
  pos : Coordinate

/-- One iteration of the 60-mark loop of `render_clock`: the stroke width
used for the tick line, the optional numeral label, and the two stroke
endpoints. -/
structure MarkOp where
  idx : ℕ
  line_width : ℕ
  label : Option MarkLabel
  mark_begin : Coordinate
  mark_end : Coordinate

/-- The draw operations of the `render_clock` loop: 60 marks starting at
`-π/2` and stepping clockwise by `2π/60`; the label is emitted only when
`needs_full_render && i % 5 == 0` and displays `(i * 5) / 5`. -/
def render_clock_ops (needs_full_render : Bool) (diameter : ℝ) : List MarkOp :=
  (List.range 60).map fun i : ℕ =>
    let degrees : ℝ := -(Real.pi / 2) - (i : ℝ) * (2 * Real.pi / 60)
    let pos : Coordinate := ⟨Real.cos degrees, Real.sin degrees⟩
    let text_pos := (pos.expand_to (diameter * (1 - 0.1))).translate1 (diameter * 0.1 / 2)
    { idx := i
      line_width := if i % 5 = 0 then 5 else 1
      label :=
        if needs_full_render ∧ i % 5 = 0 then some ⟨i * 5 / 5, text_pos⟩ else none
      mark_begin := (pos.expand_to (diameter * (1 - 0.2))).translate1 (diameter * 0.2 / 2)
      mark_end := (pos.expand_to (diameter * (1 - 0.3))).translate1 (diameter * 0.3 / 2) }

/-- Method `render()`: run `setup_resolution` when `width != height`, draw
the background disc, the fill wedge and the clock face (`render_clock`
consumes the `needs_full_render` flag), and record the render timestamp.
Returns the updated system together with the clock-face draw operations. -/
def Sys.render (s : Sys) (client_width client_height now : ℝ) : Sys × List MarkOp :=
  let ts1 :=
    if s.ts.width ≠ s.ts.height then
      s.ts.setup_resolution client_width client_height
    else s.ts
  let ops := render_clock_ops ts1.needs_full_render ts1.height
  ({ s with
      ts := { ts1 with needs_full_render := false, prev_render_ms := now }
      renders := s.renders + 1 },
    ops)

/-- The `setInterval` callback of `animate_clock` in the custom-element
variant (`src/timer.ts`): compute the elapsed seconds, render, and either
cancel the interval and clamp to zero, or decrement the remaining time. -/
def Sys.tick (s : Sys) (client_width client_height now : ℝ) : Sys :=
  let secs_since_last_render := (now - s.ts.prev_render_ms) / 1000
  let s1 := (s.render client_width client_height now).1
  if s1.ts.remaining_seconds - secs_since_last_render < 0 then
    { s1 with
      sched := s1.sched.clearTimeout s1.ts.animation_timer
      ts := s1.ts.set_remaining_seconds 0 }
  else
    { s1 with
      ts := s1.ts.set_remaining_seconds (s1.ts.remaining_seconds - secs_since_last_render) }

/-- The `setInterval` callback of `animate_clock` in the plain-wrapper
variant: identical to `Sys.tick` except that the zero branch performs one
more `render()` after clamping the remaining time to zero. -/
def Sys.tick0 (s : Sys) (client_width client_height now : ℝ) : Sys :=
  let secs_since_last_render := (now - s.ts.prev_render_ms) / 1000
  let s1 := (s.render client_width client_height now).1
  if s1.ts.remaining_seconds - secs_since_last_render < 0 then
    let s2 :=
      { s1 with
        sched := s1.sched.clearTimeout s1.ts.animation_timer
        ts := s1.ts.set_remaining_seconds 0 }
    (s2.render client_width client_height now).1
  else
    { s1 with
      ts := s1.ts.set_remaining_seconds (s1.ts.remaining_seconds - secs_since_last_render) }

/-- Method `animate_clock()`: `clearTimeout(this.animation_timer)` then
`this.animation_timer = window.setInterval(..., 200)`. -/
def Sys.animate_clock (s : Sys) : Sys :=
  let sch1 := s.sched.clearTimeout s.ts.animation_timer
  { s with
    sched := sch1.setInterval.1
    ts := { s.ts with animation_timer := some sch1.setInterval.2 } }

/-- The data the gesture handler reads off a `MouseEvent` or `Touch`:
page coordinates of the pointer and the bounding rectangle of the target. -/
structure PointerData where
  pageX : ℝ
  pageY : ℝ
  rect_left : ℝ
  rect_top : ℝ

/-- `Math.atan2(y, x)`, the argument of the point `(x, y)` in `(-π, π]`. -/
def atan2 (y x : ℝ) : ℝ :=
  Complex.arg ⟨x, y⟩

/-- Lines 276-291 of the handler: the pointer position relative to the
bounding box, translated by `-center`, fed to `atan2`, normalized to
`[0, 2π)`, rotated by `+π/2` and wrapped modulo `2π`. -/
def event_angle (center : Coordinate) (ev : PointerData) : ℝ :=
  let pos : Coordinate := ⟨ev.pageX - ev.rect_left, ev.pageY - ev.rect_top⟩
  let pos := pos.translate2 (-center.x) (-center.y)
  let angle := atan2 pos.y pos.x
  let angle := if angle < 0 then angle + 2 * Real.pi else angle
  let angle := angle + 1 / 2 * Real.pi
  jsRem angle (2 * Real.pi)

/-- The tail of `mousemove_handler` after the angle has been computed:
establish the drag origin on the first move of a gesture, otherwise apply
the angular delta as a time delta; then render and restart the loop. -/
def Sys.drag_update (s : Sys) (angle : ℝ)
    (client_width client_height now : ℝ) : Sys :=
  let s1 :=
    match s.ts.drag_starting_angle, s.ts.drag_starting_remaining_seconds with
    | some drag_starting_angle, some drag_starting_remaining_seconds =>
      let diff := drag_starting_angle - angle
      let seconds_diff := radians_to_seconds diff
      { s with
        ts := s.ts.set_remaining_seconds
          (drag_starting_remaining_seconds + seconds_diff) }
    | _, _ =>
      { s with
        ts := { s.ts with
          drag_starting_angle := some angle
          drag_starting_remaining_seconds := some s.ts.remaining_seconds } }
  ((s1.render client_width client_height now).1).animate_clock

/-- A thrown JavaScript exception. -/
inductive JsError where
  | typeError

/-- Method `mousemove_handler(event)`: when called without an event object
(the touch path passes `e.touches[0]`, which is `undefined` when the touch
list is empty), the very first line `event.target` throws a `TypeError`
before any state is touched; otherwise the handler runs normally. -/
def Sys.mousemove_handler (s : Sys) (ev : Option PointerData)
    (client_width client_height now : ℝ) : Except JsError Sys :=
  match ev with
  | none => .error .typeError
  | some ev =>
    .ok (s.drag_update (event_angle s.ts.center ev) client_width client_height now)

/-- The touchmove listener: `mousemove_handler(e.touches[0])`, run under
the browser event loop, which swallows a thrown exception and leaves the
engine state as it was. -/
def Sys.dispatch_touchmove (s : Sys) (touches : List PointerData)
    (client_width client_height now : ℝ) : Sys :=
  match s.mousemove_handler touches.head? client_width client_height now with
  | .ok s1 => s1
  | .error _ => s

/-- The mouseup / touchend listener: detach the move listener and clear
both drag-origin fields. -/
def Sys.pointer_up (s : Sys) : Sys :=
  { s with
    ts := { s.ts with
      drag_starting_angle := none
      drag_starting_remaining_seconds := none } }

/-- The window resize listener: `setup_resolution` bound to the engine. -/
def Sys.resize (s : Sys) (client_width client_height : ℝ) : Sys :=
  { s with ts := s.ts.setup_resolution client_width client_height }

/-- The constructor of `TimerCanvas`: center `(0, 0)`, the current time as
render timestamp, 2 minutes remaining, a full render requested, and
`time_radians` derived from the remaining time. -/
def construct (width height now : ℝ) : Sys :=
  { ts :=
      { width := width
        height := height
        center := ⟨0, 0⟩
        needs_full_render := true
        animation_timer := none
        prev_render_ms := now
        remaining_seconds := 2 * 60
        time_radians := seconds_to_radians (2 * 60)
        drag_starting_angle := none
        drag_starting_remaining_seconds := none }
    sched := { active := [], next_id := 0 }
    renders := 0 }

/-- Method `setup()`: first render, install the listeners, start the
animation loop. -/
def setup (s : Sys) (client_width client_height now : ℝ) : Sys :=
  ((s.render client_width client_height now).1).animate_clock

/-- The event sources the engine reacts to: an interval tick, a mouse
move, a touch move, pointer release, a window resize, and a direct
restart of the animation loop. -/
inductive Ev where
  | tick (client_width client_height now : ℝ)
  | move (ev : Option PointerData) (client_width client_height now : ℝ)
  | touch (touches : List PointerData) (client_width client_height now : ℝ)
  | up
  | resize (client_width client_height : ℝ)
  | animate

/-- One step of the event loop.  An interval callback only fires while its
id is still live in the scheduler; a thrown exception in a listener leaves
the state unchanged. -/
def Sys.step (s : Sys) (e : Ev) : Sys :=
  match e with
  | .tick cw ch now =>
    match s.ts.animation_timer with
    | some i => if i ∈ s.sched.active then s.tick cw ch now else s
    | none => s
  | .move ev cw ch now =>
    match s.mousemove_handler ev cw ch now with
    | .ok s1 => s1
    | .error _ => s
  | .touch touches cw ch now => s.dispatch_touchmove touches cw ch now
  | .up => s.pointer_up
  | .resize cw ch => s.resize cw ch
  | .animate => s.animate_clock

/-- A whole run of the event loop. -/
def Sys.run (s : Sys) (es : List Ev) : Sys :=
  es.foldl Sys.step s

/-- The scheduler invariant of §5: at most one live interval, its id is
the one the engine stored, and every stored id was handed out by the
scheduler. -/
def TimerInv (s : Sys) : Prop :=
  s.sched.active.length ≤ 1 ∧
  (∀ i ∈ s.sched.active, s.ts.animation_timer = some i) ∧
  (∀ i, s.ts.animation_timer = some i → i < s.sched.next_id)

/-- The time-model invariant of §3: the remaining time is never negative
and `time_radians` is derived from it. -/
def TimeInv (s : Sys) : Prop :=
  0 ≤ s.ts.remaining_seconds ∧
  s.ts.time_radians = seconds_to_radians s.ts.remaining_seconds

/-- A JavaScript double, abstracted as a finite real or a special value. -/
inductive JsNum where
  | num (r : ℝ)
  | nan
  | posInf
  | negInf

/-- The loop guard `s < 0` on JS numbers; false on NaN by IEEE semantics. -/
def JsNum.lt_zero : JsNum → Bool
  | num r => if r < 0 then true else false
  | nan => false
  | posInf => false
  | negInf => true

/-- The loop body `s += 60 * 60` on JS numbers; NaN and the infinities
absorb the finite addend. -/
def JsNum.add_hour : JsNum → JsNum
  | num r => num (r + 60 * 60)
  | nan => nan
  | posInf => posInf
  | negInf => negInf

/-- The `while (s < 0) s += 60 * 60` loop of `set_remaining_seconds` as a
step-counted process on JS numbers: `none` means the loop has not finished
within `fuel` iterations. -/
def add_hours_fuel : ℕ → JsNum → Option JsNum
  | fuel, s =>
    if s.lt_zero then
      match fuel with
      | 0 => none
      | n + 1 => add_hours_fuel n s.add_hour
    else some s

/-- A system in mid-drag, with an established drag origin at angle 1 and
60 remaining seconds. -/
def drag_witness_state : Sys :=
  { construct 300 300 0 with
    ts := { (construct 300 300 0).ts with
      drag_starting_angle := some 1
      drag_starting_remaining_seconds := some 60 } }

/-- A running system, one second left, last rendered at time 0. -/
def tick_witness_state : Sys :=
  { ts :=
      { width := 300
        height := 300
        center := ⟨150, 150⟩
        needs_full_render := false
        animation_timer := some 0
        prev_render_ms := 0
        remaining_seconds := 1
        time_radians := seconds_to_radians 1
        drag_starting_angle := none
        drag_starting_remaining_seconds := none }
    sched := { active := [0], next_id := 1 }
    renders := 0 }

/-- A system whose backing store is non-square (100 × 50) while the client
size reports exactly those same dimensions. -/
def resize_witness_state : Sys :=
  { ts :=
      { width := 100
        height := 50
        center := ⟨7, 9⟩
        needs_full_render := false
        animation_timer := none
        prev_render_ms := 0
        remaining_seconds := 120
        time_radians := seconds_to_radians 120
        drag_starting_angle := none
        drag_starting_remaining_seconds := none }
    sched := { active := [], next_id := 0 }
    renders := 0 }

theorem add_hours_of_neg {s : ℝ} (h : s < 0) :
    add_hours_until_positive s = add_hours_until_positive (s + 60 * 60) := by
  rw [add_hours_until_positive.eq_def, dif_pos h]

theorem add_hours_of_nonneg {s : ℝ} (h : ¬ s < 0) :
    add_hours_until_positive s = s := by
  rw [add_hours_until_positive.eq_def, dif_neg h]

theorem add_hours_spec (s : ℝ) :
    0 ≤ add_hours_until_positive s ∧
    (s < 60 * 60 → add_hours_until_positive s < 60 * 60) ∧
    ∃ k : ℤ, add_hours_until_positive s = s + 60 * 60 * k := by
  by_cases h : s < 0
  · have ih := add_hours_spec (s + 60 * 60)
    rw [add_hours_of_neg h]
    refine ⟨ih.1, fun _ => ih.2.1 (by linarith), ?_⟩
    obtain ⟨k, hk⟩ := ih.2.2
    exact ⟨k + 1, by rw [hk]; push_cast; ring⟩
  · rw [add_hours_of_nonneg h]
    exact ⟨le_of_not_lt h, fun h36 => h36, ⟨0, by push_cast; ring⟩⟩
termination_by (⌈-s / (60 * 60)⌉).toNat
decreasing_by
  have h2 : (0:ℝ) < -s / (60 * 60) := div_pos (by linarith) (by norm_num)
  have h3 : (0:ℤ) < ⌈-s / (60 * 60)⌉ := Int.ceil_pos.mpr h2
  have h4 : -(s + 60 * 60) / (60 * 60) = -s / (60 * 60) - 1 := by ring
  rw [h4, Int.ceil_sub_one]
  omega

theorem add_hours_nonneg (s : ℝ) : 0 ≤ add_hours_until_positive s :=
  (add_hours_spec s).1

theorem add_hours_eval_neg10 : add_hours_until_positive (-10) = 3590 := by
  rw [add_hours_of_neg (by norm_num)]
  norm_num
  rw [add_hours_of_nonneg (by norm_num)]

theorem add_hours_eval_neg3700 : add_hours_until_positive (-3700) = 3500 := by
  rw [add_hours_of_neg (by norm_num)]
  norm_num
  rw [add_hours_of_neg (by norm_num)]
  norm_num
  rw [add_hours_of_nonneg (by norm_num)]

theorem add_hours_eval_3700 : add_hours_until_positive 3700 = 3700 := by
  rw [add_hours_of_nonneg (by norm_num)]

theorem jsRem_sub_int (x b : ℝ) : ∃ k : ℤ, jsRem x b = x - b * k :=
  ⟨jsTrunc (x / b), rfl⟩

theorem jsRem_bounds_of_nonneg {x b : ℝ} (hb : 0 < b) (hx : 0 ≤ x) :
    0 ≤ jsRem x b ∧ jsRem x b < b := by
  have hq : ¬ (x / b < 0) := not_lt.mpr (div_nonneg hx hb.le)
  rw [jsRem, jsTrunc, if_neg hq]
  have h1 : (⌊x / b⌋ : ℝ) ≤ x / b := Int.floor_le _
  have h2 : x / b < ⌊x / b⌋ + 1 := Int.lt_floor_add_one _
  have h3 : b * (x / b) = x := by field_simp
  constructor
  · nlinarith
  · nlinarith

theorem jsRem_gt_neg {x b : ℝ} (hb : 0 < b) : -b < jsRem x b := by
  rw [jsRem, jsTrunc]
  by_cases hq : x / b < 0
  · rw [if_pos hq]
    have h2 : (⌈x / b⌉ : ℝ) < x / b + 1 := Int.ceil_lt_add_one _
    have h3 : b * (x / b) = x := by field_simp
    nlinarith
  · rw [if_neg hq]
    have h1 : (⌊x / b⌋ : ℝ) ≤ x / b := Int.floor_le _
    have h3 : b * (x / b) = x := by field_simp
    nlinarith

theorem mod_hour_unique {u v : ℝ} (hu0 : 0 ≤ u) (hu1 : u < 60 * 60)
    (hv0 : 0 ≤ v) (hv1 : v < 60 * 60)
    (h : ∃ k : ℤ, u = v + 60 * 60 * k) : u = v := by
  obtain ⟨k, hk⟩ := h
  have h1 : (-1 : ℝ) < (k : ℝ) := by linarith
  have h2 : ((k : ℝ)) < 1 := by linarith
  have h3 : (-1 : ℤ) < k := by exact_mod_cast h1
  have h4 : k < (1 : ℤ) := by exact_mod_cast h2
  have h5 : k = 0 := by omega
  rw [hk, h5]
  push_cast
  ring

theorem add_hours_closed_form {s : ℝ} (h : s < 60 * 60) :
    add_hours_until_positive s = jsRem (jsRem s (60 * 60) + 60 * 60) (60 * 60) := by
  have hb : (0:ℝ) < 60 * 60 := by norm_num
  have hz : 0 ≤ jsRem s (60 * 60) + 60 * 60 := by
    have := @jsRem_gt_neg s (60 * 60) hb
    linarith
  have hB := jsRem_bounds_of_nonneg hb hz
  apply mod_hour_unique (add_hours_nonneg s) ((add_hours_spec s).2.1 h) hB.1 hB.2
  obtain ⟨k1, hk1⟩ := (add_hours_spec s).2.2
  obtain ⟨k2, hk2⟩ := jsRem_sub_int s (60 * 60)
  obtain ⟨k3, hk3⟩ := jsRem_sub_int (jsRem s (60 * 60) + 60 * 60) (60 * 60)
  exact ⟨k1 + k2 + k3 - 1, by rw [hk1, hk3, hk2]; push_cast; ring⟩

theorem TimerInv.active_cases {s : Sys} (h : TimerInv s) :
    s.sched.active = [] ∨
    ∃ i, s.sched.active = [i] ∧ s.ts.animation_timer = some i := by
  obtain ⟨hlen, hmem, _⟩ := h
  cases hA : s.sched.active with
  | nil => exact Or.inl rfl
  | cons a t =>
    right
    refine ⟨a, ?_, (hmem a (by rw [hA]; exact List.mem_cons_self a t)).symm ▸ rfl⟩
    rw [hA] at hlen
    simp only [List.length_cons] at hlen
    have ht : t = [] := List.length_eq_zero.mp (by omega)
    rw [ht]

theorem clearTimeout_next_id (sch : Sched) (i : Option ℕ) :
    (sch.clearTimeout i).next_id = sch.next_id := by
  cases i <;> rfl

theorem clear_own_timer_active {s : Sys} (h : TimerInv s) :
    (s.sched.clearTimeout s.ts.animation_timer).active = [] := by
  rcases h.active_cases with hA | ⟨i, hA, hT⟩
  · cases hT : s.ts.animation_timer with
    | none => simpa [Sched.clearTimeout] using hA
    | some j => simp [Sched.clearTimeout, hA]
  · rw [hT]
    simp [Sched.clearTimeout, hA, List.erase_cons_head]

theorem animate_clock_result {s : Sys} (h : TimerInv s) :
    (s.animate_clock).sched.active = [s.sched.next_id] ∧
    (s.animate_clock).sched.next_id = s.sched.next_id + 1 ∧
    (s.animate_clock).ts.animation_timer = some s.sched.next_id := by
  refine ⟨?_, ?_, ?_⟩ <;>
    simp [Sys.animate_clock, Sched.setInterval, clear_own_timer_active h,
      clearTimeout_next_id]

theorem animate_clock_TimerInv {s : Sys} (h : TimerInv s) :
    TimerInv (s.animate_clock) := by
  obtain ⟨h1, h2, h3⟩ := animate_clock_result h
  refine ⟨by rw [h1]; exact le_refl 1, ?_, ?_⟩
  · intro i hi
    rw [h1] at hi
    simp only [List.mem_singleton] at hi
    rw [h3, hi]
  · intro i hi
    rw [h3] at hi
    injection hi with hi
    omega

theorem animate_clock_ts_eq (s : Sys) :
    (s.animate_clock).ts =
      { s.ts with animation_timer := some (s.sched.clearTimeout s.ts.animation_timer).next_id } := by
  rfl

theorem render_sched (s : Sys) (cw ch now : ℝ) :
    (s.render cw ch now).1.sched = s.sched := by
  unfold Sys.render TimerState.setup_resolution
  split_ifs <;> simp

theorem render_renders (s : Sys) (cw ch now : ℝ) :
    (s.render cw ch now).1.renders = s.renders + 1 := by
  unfold Sys.render TimerState.setup_resolution
  split_ifs <;> simp

theorem render_timer (s : Sys) (cw ch now : ℝ) :
    (s.render cw ch now).1.ts.animation_timer = s.ts.animation_timer := by
  unfold Sys.render TimerState.setup_resolution
  split_ifs <;> simp

theorem render_remaining (s : Sys) (cw ch now : ℝ) :
    (s.render cw ch now).1.ts.remaining_seconds = s.ts.remaining_seconds := by
  unfold Sys.render TimerState.setup_resolution
  split_ifs <;> simp

theorem render_time_radians (s : Sys) (cw ch now : ℝ) :
    (s.render cw ch now).1.ts.time_radians = s.ts.time_radians := by
  unfold Sys.render TimerState.setup_resolution
  split_ifs <;> simp

theorem render_flag (s : Sys) (cw ch now : ℝ) :
    (s.render cw ch now).1.ts.needs_full_render = false := by
  unfold Sys.render TimerState.setup_resolution
  split_ifs <;> simp

theorem set_remaining_remaining (ts : TimerState) (x : ℝ) :
    (ts.set_remaining_seconds x).remaining_seconds = add_hours_until_positive x :=
  rfl

theorem set_remaining_time_radians (ts : TimerState) (x : ℝ) :
    (ts.set_remaining_seconds x).time_radians
      = seconds_to_radians (add_hours_until_positive x) :=
  rfl

theorem set_remaining_timer (ts : TimerState) (x : ℝ) :
    (ts.set_remaining_seconds x).animation_timer = ts.animation_timer :=
  rfl

/-- Unfolding of `Sys.tick`: the two branches written out. -/
theorem tick_eq (s : Sys) (cw ch now : ℝ) :
    s.tick cw ch now =
      (if (s.render cw ch now).1.ts.remaining_seconds
            - (now - s.ts.prev_render_ms) / 1000 < 0 then
        { (s.render cw ch now).1 with
          sched := (s.render cw ch now).1.sched.clearTimeout
            (s.render cw ch now).1.ts.animation_timer
          ts := (s.render cw ch now).1.ts.set_remaining_seconds 0 }
      else
        { (s.render cw ch now).1 with
          ts := (s.render cw ch now).1.ts.set_remaining_seconds
            ((s.render cw ch now).1.ts.remaining_seconds
              - (now - s.ts.prev_render_ms) / 1000) }) :=
  rfl

/-- Unfolding of `Sys.tick0`: the plain-wrapper variant written out. -/
theorem tick0_eq (s : Sys) (cw ch now : ℝ) :
    s.tick0 cw ch now =
      (if (s.render cw ch now).1.ts.remaining_seconds
            - (now - s.ts.prev_render_ms) / 1000 < 0 then
        (({ (s.render cw ch now).1 with
            sched := (s.render cw ch now).1.sched.clearTimeout
              (s.render cw ch now).1.ts.animation_timer
            ts := (s.render cw ch now).1.ts.set_remaining_seconds 0 } : Sys).render
          cw ch now).1
      else
        { (s.render cw ch now).1 with
          ts := (s.render cw ch now).1.ts.set_remaining_seconds
            ((s.render cw ch now).1.ts.remaining_seconds
              - (now - s.ts.prev_render_ms) / 1000) }) :=
  rfl

theorem TimerInv_of_eq {s s' : Sys} (h : TimerInv s)
    (ha : s'.sched.active = s.sched.active)
    (hn : s'.sched.next_id = s.sched.next_id)
    (ht : s'.ts.animation_timer = s.ts.animation_timer) : TimerInv s' := by
  obtain ⟨h1, h2, h3⟩ := h
  refine ⟨ha ▸ h1, fun i hi => ?_, fun i hi => ?_⟩
  · rw [ht]
    exact h2 i (ha ▸ hi)
  · rw [hn]
    exact h3 i (ht ▸ hi)

theorem TimerInv_of_empty {s' : Sys} (hs : s'.sched.active = [])
    (hb : ∀ i, s'.ts.animation_timer = some i → i < s'.sched.next_id) :
    TimerInv s' :=
  ⟨by rw [hs]; simp, fun i hi => absurd (hs ▸ hi) (List.not_mem_nil i), hb⟩

theorem render_TimerInv {s : Sys} (cw ch now : ℝ) (h : TimerInv s) :
    TimerInv (s.render cw ch now).1 :=
  TimerInv_of_eq h (by rw [render_sched]) (by rw [render_sched])
    (render_timer s cw ch now)

theorem tick_TimerInv {s : Sys} (cw ch now : ℝ) (h : TimerInv s) :
    TimerInv (s.tick cw ch now) := by
  have hclear : ((s.render cw ch now).1.sched.clearTimeout
      (s.render cw ch now).1.ts.animation_timer).active = [] := by
    rw [render_sched, render_timer]
    exact clear_own_timer_active h
  rw [tick_eq]
  split_ifs with hc
  · refine TimerInv_of_empty hclear fun i hi => ?_
    have ht : ((s.render cw ch now).1.ts.set_remaining_seconds 0).animation_timer
        = s.ts.animation_timer := by
      rw [set_remaining_timer, render_timer]
    rw [ht] at hi
    have := h.2.2 i hi
    have hn : ((s.render cw ch now).1.sched.clearTimeout
        (s.render cw ch now).1.ts.animation_timer).next_id = s.sched.next_id := by
      rw [clearTimeout_next_id, render_sched]
    rw [hn]
    exact this
  · refine TimerInv_of_eq h ?_ ?_ ?_
    · rw [render_sched]
    · rw [render_sched]
    · rw [set_remaining_timer, render_timer]

theorem tick0_TimerInv {s : Sys} (cw ch now : ℝ) (h : TimerInv s) :
    TimerInv (s.tick0 cw ch now) := by
  have hclear : ((s.render cw ch now).1.sched.clearTimeout
      (s.render cw ch now).1.ts.animation_timer).active = [] := by
    rw [render_sched, render_timer]
    exact clear_own_timer_active h
  rw [tick0_eq]
  split_ifs with hc
  · refine TimerInv_of_empty ?_ fun i hi => ?_
    · rw [render_sched]
      exact hclear
    · rw [render_timer, set_remaining_timer, render_timer] at hi
      have := h.2.2 i hi
      rw [render_sched, clearTimeout_next_id, render_sched]
      exact this
  · refine TimerInv_of_eq h ?_ ?_ ?_
    · rw [render_sched]
    · rw [render_sched]
    · rw [set_remaining_timer, render_timer]

theorem drag_update_TimerInv {s : Sys} (a cw ch now : ℝ) (h : TimerInv s) :
    TimerInv (s.drag_update a cw ch now) := by
  unfold Sys.drag_update
  apply animate_clock_TimerInv
  cases h1 : s.ts.drag_starting_angle with
  | some x =>
    cases h2 : s.ts.drag_starting_remaining_seconds with
    | some y =>
      exact render_TimerInv cw ch now
        (TimerInv_of_eq h rfl rfl (set_remaining_timer _ _))
    | none => exact render_TimerInv cw ch now (TimerInv_of_eq h rfl rfl rfl)
  | none => exact render_TimerInv cw ch now (TimerInv_of_eq h rfl rfl rfl)

theorem step_TimerInv {s : Sys} (e : Ev) (h : TimerInv s) :
    TimerInv (s.step e) := by
  cases e with
  | tick cw ch now =>
    show TimerInv (match s.ts.animation_timer with
      | some i => if i ∈ s.sched.active then s.tick cw ch now else s
      | none => s)
    cases s.ts.animation_timer with
    | some i =>
      by_cases hm : i ∈ s.sched.active
      · simpa [hm] using tick_TimerInv cw ch now h
      · simpa [hm] using h
    | none => exact h
  | move ev cw ch now =>
    cases ev with
    | some p => exact drag_update_TimerInv _ cw ch now h
    | none => exact h
  | touch touches cw ch now =>
    show TimerInv (s.dispatch_touchmove touches cw ch now)
    cases touches with
    | nil => exact h
    | cons p rest =>
      exact drag_update_TimerInv _ cw ch now h
  | up => exact TimerInv_of_eq h rfl rfl rfl
  | resize cw ch =>
    refine TimerInv_of_eq h rfl rfl ?_
    show (s.ts.setup_resolution cw ch).animation_timer = s.ts.animation_timer
    unfold TimerState.setup_resolution
    split_ifs <;> rfl
  | animate => exact animate_clock_TimerInv h

theorem run_TimerInv {s : Sys} (es : List Ev) (h : TimerInv s) :
    TimerInv (s.run es) := by
  induction es generalizing s with
  | nil => exact h
  | cons e rest ih => exact ih (step_TimerInv e h)

theorem TimeInv_of_eq {s s' : Sys} (h : TimeInv s)
    (h1 : s'.ts.remaining_seconds = s.ts.remaining_seconds)
    (h2 : s'.ts.time_radians = s.ts.time_radians) : TimeInv s' :=
  ⟨h1 ▸ h.1, by rw [h1, h2]; exact h.2⟩

theorem TimeInv_set {s' : Sys} (x : ℝ)
    (h1 : s'.ts.remaining_seconds = add_hours_until_positive x)
    (h2 : s'.ts.time_radians = seconds_to_radians (add_hours_until_positive x)) :
    TimeInv s' :=
  ⟨h1 ▸ add_hours_nonneg x, by rw [h1, h2]⟩

theorem render_TimeInv {s : Sys} (cw ch now : ℝ) (h : TimeInv s) :
    TimeInv (s.render cw ch now).1 :=
  TimeInv_of_eq h (render_remaining s cw ch now) (render_time_radians s cw ch now)

theorem animate_clock_TimeInv {s : Sys} (h : TimeInv s) :
    TimeInv (s.animate_clock) :=
  TimeInv_of_eq h rfl rfl

theorem tick_TimeInv (s : Sys) (cw ch now : ℝ) :
    TimeInv (s.tick cw ch now) := by
  rw [tick_eq]
  split_ifs with hc
  · exact TimeInv_set 0 rfl rfl
  · exact TimeInv_set _ rfl rfl

theorem tick0_TimeInv (s : Sys) (cw ch now : ℝ) :
    TimeInv (s.tick0 cw ch now) := by
  rw [tick0_eq]
  split_ifs with hc
  · have h2 : TimeInv ({ (s.render cw ch now).1 with
        sched := (s.render cw ch now).1.sched.clearTimeout
          (s.render cw ch now).1.ts.animation_timer
        ts := (s.render cw ch now).1.ts.set_remaining_seconds 0 } : Sys) :=
      TimeInv_set 0 rfl rfl
    exact TimeInv_of_eq h2 (by rw [render_remaining]) (by rw [render_time_radians])
  · exact TimeInv_set _ rfl rfl

theorem drag_update_TimeInv {s : Sys} (a cw ch now : ℝ) (h : TimeInv s) :
    TimeInv (s.drag_update a cw ch now) := by
  unfold Sys.drag_update
  apply animate_clock_TimeInv
  cases h1 : s.ts.drag_starting_angle with
  | some x =>
    cases h2 : s.ts.drag_starting_remaining_seconds with
    | some y =>
      refine render_TimeInv cw ch now (TimeInv_set _ rfl rfl)
    | none => exact render_TimeInv cw ch now (TimeInv_of_eq h rfl rfl)
  | none => exact render_TimeInv cw ch now (TimeInv_of_eq h rfl rfl)

theorem step_TimeInv {s : Sys} (e : Ev) (h : TimeInv s) :
    TimeInv (s.step e) := by
  cases e with
  | tick cw ch now =>
    show TimeInv (match s.ts.animation_timer with
      | some i => if i ∈ s.sched.active then s.tick cw ch now else s
      | none => s)
    cases s.ts.animation_timer with
    | some i =>
      by_cases hm : i ∈ s.sched.active
      · simpa [hm] using tick_TimeInv s cw ch now
      · simpa [hm] using h
    | none => exact h
  | move ev cw ch now =>
    cases ev with
    | some p => exact drag_update_TimeInv _ cw ch now h
    | none => exact h
  | touch touches cw ch now =>
    show TimeInv (s.dispatch_touchmove touches cw ch now)
    cases touches with
    | nil => exact h
    | cons p rest => exact drag_update_TimeInv _ cw ch now h
  | up => exact TimeInv_of_eq h rfl rfl
  | resize cw ch =>
    refine TimeInv_of_eq h ?_ ?_
    · show (s.ts.setup_resolution cw ch).remaining_seconds = s.ts.remaining_seconds
      unfold TimerState.setup_resolution
      split_ifs <;> rfl
    · show (s.ts.setup_resolution cw ch).time_radians = s.ts.time_radians
      unfold TimerState.setup_resolution
      split_ifs <;> rfl
  | animate => exact animate_clock_TimeInv h

theorem run_TimeInv {s : Sys} (es : List Ev) (h : TimeInv s) :
    TimeInv (s.run es) := by
  induction es generalizing s with
  | nil => exact h
  | cons e rest ih => exact ih (step_TimeInv e h)

theorem construct_TimeInv (w h now : ℝ) : TimeInv (construct w h now) :=
  ⟨by norm_num [construct], rfl⟩

theorem construct_TimerInv (w h now : ℝ) : TimerInv (construct w h now) :=
  ⟨by simp [construct], fun i hi => by simp [construct] at hi,
    fun i hi => by simp [construct] at hi⟩

theorem setup_TimerInv {s : Sys} (cw ch now : ℝ) (h : TimerInv s) :
    TimerInv (setup s cw ch now) :=
  animate_clock_TimerInv (render_TimerInv cw ch now h)

theorem setup_TimeInv {s : Sys} (cw ch now : ℝ) (h : TimeInv s) :
    TimeInv (setup s cw ch now) :=
  animate_clock_TimeInv (render_TimeInv cw ch now h)

theorem add_hours_fuel_num (r : ℝ) :
    ∃ n, add_hours_fuel n (.num r) = some (.num (add_hours_until_positive r)) := by
  by_cases h : r < 0
  · obtain ⟨n, hn⟩ := add_hours_fuel_num (r + 60 * 60)
    refine ⟨n + 1, ?_⟩
    rw [add_hours_fuel.eq_def]
    simp only [JsNum.lt_zero, if_pos h, if_true, JsNum.add_hour]
    rw [hn, add_hours_of_neg h]
  · refine ⟨0, ?_⟩
    rw [add_hours_fuel.eq_def]
    simp only [JsNum.lt_zero, if_neg h]
    rw [add_hours_of_nonneg h]
    simp
termination_by (⌈-r / (60 * 60)⌉).toNat
decreasing_by
  have h2 : (0:ℝ) < -r / (60 * 60) := div_pos (by linarith) (by norm_num)
  have h3 : (0:ℤ) < ⌈-r / (60 * 60)⌉ := Int.ceil_pos.mpr h2
  have h4 : -(r + 60 * 60) / (60 * 60) = -r / (60 * 60) - 1 := by ring
  rw [h4, Int.ceil_sub_one]
  omega

theorem add_hours_fuel_negInf (n : ℕ) : add_hours_fuel n .negInf = none := by
  induction n with
  | zero =>
    rw [add_hours_fuel.eq_def]
    simp [JsNum.lt_zero]
  | succ n ih =>
    rw [add_hours_fuel.eq_def]
    simpa [JsNum.lt_zero, JsNum.add_hour] using ih

theorem add_hours_fuel_nan (n : ℕ) : add_hours_fuel n .nan = some .nan := by
  rw [add_hours_fuel.eq_def]
  simp [JsNum.lt_zero]

/-- C1 counterexample: the claim quantifies over every real input, but at
input 3700 the loop stores 3700 unchanged, which neither lies in the
interval [0, 3600) nor equals the closed form ((s % 3600) + 3600) % 3600
under JS remainder semantics. -/
theorem C1_counterexample :
    add_hours_until_positive 3700 = 3700 ∧
    ¬ add_hours_until_positive 3700 < 60 * 60 ∧
    add_hours_until_positive 3700
      ≠ jsRem (jsRem 3700 (60 * 60) + 60 * 60) (60 * 60) := by
  have hb : (0:ℝ) < 60 * 60 := by norm_num
  have hz : 0 ≤ jsRem (3700:ℝ) (60 * 60) + 60 * 60 := by
    have := @jsRem_gt_neg (3700:ℝ) (60 * 60) hb
    linarith
  have hB := jsRem_bounds_of_nonneg hb hz
  refine ⟨add_hours_eval_3700, by rw [add_hours_eval_3700]; norm_num, ?_⟩
  rw [add_hours_eval_3700]
  intro hEq
  rw [← hEq] at hB
  have := hB.2
  norm_num at this

/-- C1 (amended): for every real input the value stored by the
`set_remaining_seconds` loop is nonnegative and congruent to the input
modulo 3600; for every input below 3600 it moreover lies in [0, 3600) and
equals the closed form ((s % 3600) + 3600) % 3600 under JS remainder
semantics; a direct call with -10 stores 3590 and with -3700 stores 3500;
and `set_remaining_seconds` stores exactly the loop's result. -/
theorem C1_set_remaining_seconds_normalization :
    (∀ s : ℝ, 0 ≤ add_hours_until_positive s ∧
      ∃ k : ℤ, add_hours_until_positive s = s + 60 * 60 * k) ∧
    (∀ s : ℝ, s < 60 * 60 →
      add_hours_until_positive s < 60 * 60 ∧
      add_hours_until_positive s
        = jsRem (jsRem s (60 * 60) + 60 * 60) (60 * 60)) ∧
    add_hours_until_positive (-10) = 3590 ∧
    add_hours_until_positive (-3700) = 3500 ∧
    (∀ (ts : TimerState) (x : ℝ),
      (ts.set_remaining_seconds x).remaining_seconds
        = add_hours_until_positive x) :=
  ⟨fun s => ⟨(add_hours_spec s).1, (add_hours_spec s).2.2⟩,
    fun s h => ⟨(add_hours_spec s).2.1 h, add_hours_closed_form h⟩,
    add_hours_eval_neg10, add_hours_eval_neg3700,
    fun ts x => set_remaining_remaining ts x⟩

/-- C1 witness: at the concrete input -10 the hypothesis -10 < 3600 holds
and the amended claim evaluates: the result 3590 lies below 3600 and
matches the closed form. -/
theorem C1_witness :
    (-10 : ℝ) < 60 * 60 ∧
    add_hours_until_positive (-10) < 60 * 60 ∧
    add_hours_until_positive (-10)
      = jsRem (jsRem (-10) (60 * 60) + 60 * 60) (60 * 60) :=
  ⟨by norm_num,
    (C1_set_remaining_seconds_normalization.2.1 (-10) (by norm_num)).1,
    (C1_set_remaining_seconds_normalization.2.1 (-10) (by norm_num)).2⟩

/-- C4: `radians_to_seconds` inverts `seconds_to_radians` exactly over the
reals, `seconds_to_radians` is (s / 60) * (π / 30), and 3600 seconds map
to a full turn of 2π. -/
theorem C4_conversions_mutual_inverses :
    (∀ s : ℝ, radians_to_seconds (seconds_to_radians s) = s) ∧
    (∀ s : ℝ, seconds_to_radians s = s / 60 * (Real.pi / 30)) ∧
    seconds_to_radians 3600 = 2 * Real.pi := by
  have hpi := Real.pi_ne_zero
  refine ⟨fun s => ?_, fun s => ?_, ?_⟩
  · simp only [seconds_to_radians, radians_to_seconds]
    field_simp
    ring
  · simp only [seconds_to_radians]
    ring
  · simp only [seconds_to_radians]
    field_simp
    ring

theorem animate_clock_remaining (s : Sys) :
    (s.animate_clock).ts.remaining_seconds = s.ts.remaining_seconds :=
  rfl

/-- C3: during an active drag, every subsequent move event at current
angle `a` sets the remaining time to the zero-crossing normalization of
`origin.remaining_seconds + radians_to_seconds (origin.angle - a)`; in
particular from 60 remaining seconds, a move one π/30 clockwise of the
origin angle yields 120, and a full-circle delta of 2π is worth exactly
3600 time-units. -/
theorem C3_drag_delta (s : Sys) (θ₀ r₀ a cw ch now : ℝ)
    (h1 : s.ts.drag_starting_angle = some θ₀)
    (h2 : s.ts.drag_starting_remaining_seconds = some r₀) :
    (s.drag_update a cw ch now).ts.remaining_seconds
      = add_hours_until_positive (r₀ + radians_to_seconds (θ₀ - a)) ∧
    (r₀ = 60 → a = θ₀ - Real.pi / 30 →
      (s.drag_update a cw ch now).ts.remaining_seconds = 120) ∧
    radians_to_seconds (2 * Real.pi) = 3600 := by
  have key : (s.drag_update a cw ch now).ts.remaining_seconds
      = add_hours_until_positive (r₀ + radians_to_seconds (θ₀ - a)) := by
    unfold Sys.drag_update
    rw [h1, h2, animate_clock_remaining, render_remaining]
    exact set_remaining_remaining s.ts _
  refine ⟨key, fun hr ha => ?_, ?_⟩
  · rw [key, hr, ha]
    have hd : θ₀ - (θ₀ - Real.pi / 30) = Real.pi / 30 := by ring
    have h60 : radians_to_seconds (Real.pi / 30) = 60 := by
      unfold radians_to_seconds
      field_simp
      ring
    rw [hd, h60]
    rw [show (60:ℝ) + 60 = 120 by norm_num]
    exact add_hours_of_nonneg (by norm_num)
  · unfold radians_to_seconds
    field_simp
    ring

/-- C3 witness: the drag scenario evaluated at origin angle 1 with 60
remaining seconds and a second move at angle 1 - π/30 yields exactly 120
remaining seconds. -/
theorem C3_witness :
    drag_witness_state.ts.drag_starting_angle = some 1 ∧
    drag_witness_state.ts.drag_starting_remaining_seconds = some 60 ∧
    (drag_witness_state.drag_update (1 - Real.pi / 30) 300 300 0).ts.remaining_seconds
      = 120 :=
  ⟨rfl, rfl,
    (C3_drag_delta drag_witness_state 1 60 (1 - Real.pi / 30) 300 300 0
      rfl rfl).2.1 rfl rfl⟩

/-- C9: a move event that carries no associable position — in this code
base the touch path hands `mousemove_handler` the element `touches[0]` of
an empty touch list — makes the handler abort on its first line, before
any state write, so the engine state and in particular `remaining_seconds`
and `time_radians` are left unchanged and no NaN can reach rendering. -/
theorem C9_malformed_move_is_noop (s : Sys) (cw ch now : ℝ) :
    s.dispatch_touchmove [] cw ch now = s ∧
    s.mousemove_handler none cw ch now = .error .typeError ∧
    (s.dispatch_touchmove [] cw ch now).ts.remaining_seconds
      = s.ts.remaining_seconds ∧
    (s.dispatch_touchmove [] cw ch now).ts.time_radians = s.ts.time_radians :=
  ⟨rfl, rfl, rfl, rfl⟩

/-- C10: the normalization loop of `set_remaining_seconds` terminates for
every finite real input, computing the value of the total model; on -∞
it never terminates (every iteration leaves -∞ negative), and NaN is
passed through unchanged because `NaN < 0` is false — so finiteness is
exactly the needed precondition. -/
theorem C10_loop_termination :
    (∀ r : ℝ, ∃ n,
      add_hours_fuel n (.num r) = some (.num (add_hours_until_positive r))) ∧
    (∀ n, add_hours_fuel n .negInf = none) ∧
    (∀ n, add_hours_fuel n .nan = some .nan) :=
  ⟨add_hours_fuel_num, add_hours_fuel_negInf, add_hours_fuel_nan⟩

/-- C5: `animate_clock` always cancels the stored schedule before
scheduling a new one: afterwards exactly the fresh id is live and any
previously stored id is dead; calling it twice in succession leaves
exactly one live schedule; the at-most-one-live-interval invariant holds
after construction plus setup and is preserved by every interleaving of
ticks, moves, releases, resizes and restarts. -/
theorem C5_single_active_schedule :
    (∀ s : Sys, TimerInv s →
      (s.animate_clock).sched.active = [s.sched.next_id] ∧
      (∀ i, s.ts.animation_timer = some i →
        i ∉ (s.animate_clock).sched.active) ∧
      ((s.animate_clock).animate_clock).sched.active.length = 1) ∧
    (∀ w h now cw ch now2, TimerInv (setup (construct w h now) cw ch now2)) ∧
    (∀ s : Sys, TimerInv s → ∀ es : List Ev,
      TimerInv (s.run es) ∧ (s.run es).sched.active.length ≤ 1) := by
  refine ⟨fun s h => ?_, fun w ht now cw ch now2 => ?_, fun s h es => ?_⟩
  · obtain ⟨ha, hn, hw⟩ := animate_clock_result h
    refine ⟨ha, fun i hi hmem => ?_, ?_⟩
    · rw [ha] at hmem
      simp only [List.mem_singleton] at hmem
      exact absurd (hmem ▸ h.2.2 i hi) (lt_irrefl _)
    · rw [(animate_clock_result (animate_clock_TimerInv h)).1]
      rfl
  · exact setup_TimerInv cw ch now2 (construct_TimerInv w ht now)
  · exact ⟨run_TimerInv es h, (run_TimerInv es h).1⟩

/-- C5 witness: a freshly constructed engine satisfies the scheduler
invariant, and two immediate calls of `animate_clock` leave exactly one
live schedule. -/
theorem C5_witness :
    TimerInv (construct 300 150 0) ∧
    ((construct 300 150 0).animate_clock.animate_clock).sched.active.length
      = 1 :=
  ⟨construct_TimerInv 300 150 0,
    (C5_single_active_schedule.1 (construct 300 150 0)
      (construct_TimerInv 300 150 0)).2.2⟩

/-- C8: the invariant `remaining_seconds ≥ 0` and
`time_radians = seconds_to_radians remaining_seconds` holds after
construction and is preserved by every event-loop step — the animation
decrement and the drag adjustment both go through
`set_remaining_seconds` — in both source variants. -/
theorem C8_time_invariant :
    (∀ w h now, TimeInv (construct w h now)) ∧
    (∀ w h now cw ch now2, TimeInv (setup (construct w h now) cw ch now2)) ∧
    (∀ s : Sys, TimeInv s → ∀ e : Ev, TimeInv (s.step e)) ∧
    (∀ s : Sys, TimeInv s → ∀ es : List Ev, TimeInv (s.run es)) ∧
    (∀ (s : Sys) (cw ch now : ℝ), TimeInv (s.tick0 cw ch now)) :=
  ⟨construct_TimeInv,
    fun w h now cw ch now2 => setup_TimeInv cw ch now2 (construct_TimeInv w h now),
    fun _ h e => step_TimeInv e h,
    fun _ h es => run_TimeInv es h,
    tick0_TimeInv⟩

/-- C8 witness: the invariant holds at a concrete freshly constructed
engine and is carried across a concrete step. -/
theorem C8_witness :
    TimeInv (construct 300 150 0) ∧
    TimeInv ((construct 300 150 0).step .up) :=
  ⟨C8_time_invariant.1 300 150 0,
    C8_time_invariant.2.2.1 (construct 300 150 0)
      (C8_time_invariant.1 300 150 0) .up⟩

/-- C2 counterexample: in the custom-element variant the zero branch does
not render once more after clamping: at this concrete state (one second
remaining, tick two seconds after the last render) the tick performs
exactly one render where the claim requires the tick's render plus one
additional render. -/
theorem C2_counterexample :
    tick_witness_state.ts.remaining_seconds
      - (2000 - tick_witness_state.ts.prev_render_ms) / 1000 < 0 ∧
    (tick_witness_state.tick 300 300 2000).renders = 1 ∧
    (tick_witness_state.tick 300 300 2000).renders
      ≠ tick_witness_state.renders + 2 := by
  have h : (tick_witness_state.render 300 300 2000).1.ts.remaining_seconds
      - (2000 - tick_witness_state.ts.prev_render_ms) / 1000 < 0 := by
    rw [render_remaining]
    show (1:ℝ) - (2000 - 0) / 1000 < 0
    norm_num
  refine ⟨by show (1:ℝ) - (2000 - 0) / 1000 < 0; norm_num, ?_, ?_⟩
  · rw [tick_eq, if_pos h]
    show (tick_witness_state.render 300 300 2000).1.renders = 1
    rw [render_renders]
    rfl
  · rw [tick_eq, if_pos h]
    show (tick_witness_state.render 300 300 2000).1.renders
      ≠ tick_witness_state.renders + 2
    rw [render_renders]
    show 0 + 1 ≠ 0 + 2
    omega

/-- C2 (amended): each tick computes elapsed = (now − prev)/1000 and
renders once; when remaining − elapsed < 0 both variants cancel the
scheduled interval (under the scheduler invariant no schedule stays live)
and clamp the remaining time to 0, and the plain-wrapper variant performs
one additional render while the custom-element variant does not;
otherwise both variants decrement the remaining time through the
zero-crossing normalization, leave the scheduler untouched and stay
running. -/
theorem C2_tick_behavior (s : Sys) (cw ch now : ℝ) :
    (s.ts.remaining_seconds - (now - s.ts.prev_render_ms) / 1000 < 0 →
      (s.tick cw ch now).ts.remaining_seconds = 0 ∧
      (s.tick0 cw ch now).ts.remaining_seconds = 0 ∧
      (TimerInv s → (s.tick cw ch now).sched.active = []) ∧
      (TimerInv s → (s.tick0 cw ch now).sched.active = []) ∧
      (s.tick cw ch now).renders = s.renders + 1 ∧
      (s.tick0 cw ch now).renders = s.renders + 2) ∧
    (¬ s.ts.remaining_seconds - (now - s.ts.prev_render_ms) / 1000 < 0 →
      (s.tick cw ch now).ts.remaining_seconds
        = add_hours_until_positive
            (s.ts.remaining_seconds - (now - s.ts.prev_render_ms) / 1000) ∧
      (s.tick0 cw ch now).ts.remaining_seconds
        = add_hours_until_positive
            (s.ts.remaining_seconds - (now - s.ts.prev_render_ms) / 1000) ∧
      (s.tick cw ch now).sched = s.sched ∧
      (s.tick0 cw ch now).sched = s.sched ∧
      (s.tick cw ch now).renders = s.renders + 1 ∧
      (s.tick0 cw ch now).renders = s.renders + 1) := by
  have hrem : (s.render cw ch now).1.ts.remaining_seconds
      = s.ts.remaining_seconds := render_remaining s cw ch now
  constructor
  · intro hc
    have hc2 : (s.render cw ch now).1.ts.remaining_seconds
        - (now - s.ts.prev_render_ms) / 1000 < 0 := by rw [hrem]; exact hc
    have hzero : add_hours_until_positive 0 = 0 :=
      add_hours_of_nonneg (by norm_num)
    refine ⟨?_, ?_, ?_, ?_, ?_, ?_⟩
    · rw [tick_eq, if_pos hc2]
      show ((s.render cw ch now).1.ts.set_remaining_seconds 0).remaining_seconds = 0
      rw [set_remaining_remaining, hzero]
    · rw [tick0_eq, if_pos hc2, render_remaining]
      show ((s.render cw ch now).1.ts.set_remaining_seconds 0).remaining_seconds = 0
      rw [set_remaining_remaining, hzero]
    · intro hI
      rw [tick_eq, if_pos hc2]
      show ((s.render cw ch now).1.sched.clearTimeout
        (s.render cw ch now).1.ts.animation_timer).active = []
      rw [render_sched, render_timer]
      exact clear_own_timer_active hI
    · intro hI
      rw [tick0_eq, if_pos hc2, render_sched]
      show ((s.render cw ch now).1.sched.clearTimeout
        (s.render cw ch now).1.ts.animation_timer).active = []
      rw [render_sched, render_timer]
      exact clear_own_timer_active hI
    · rw [tick_eq, if_pos hc2]
      show (s.render cw ch now).1.renders = s.renders + 1
      exact render_renders s cw ch now
    · rw [tick0_eq, if_pos hc2, render_renders]
      show (s.render cw ch now).1.renders + 1 = s.renders + 2
      rw [render_renders]
  · intro hc
    have hc2 : ¬ (s.render cw ch now).1.ts.remaining_seconds
        - (now - s.ts.prev_render_ms) / 1000 < 0 := by rw [hrem]; exact hc
    refine ⟨?_, ?_, ?_, ?_, ?_, ?_⟩
    · rw [tick_eq, if_neg hc2]
      show ((s.render cw ch now).1.ts.set_remaining_seconds _).remaining_seconds = _
      rw [set_remaining_remaining, hrem]
    · rw [tick0_eq, if_neg hc2]
      show ((s.render cw ch now).1.ts.set_remaining_seconds _).remaining_seconds = _
      rw [set_remaining_remaining, hrem]
    · rw [tick_eq, if_neg hc2]
      show (s.render cw ch now).1.sched = s.sched
      exact render_sched s cw ch now
    · rw [tick0_eq, if_neg hc2]
      show (s.render cw ch now).1.sched = s.sched
      exact render_sched s cw ch now
    · rw [tick_eq, if_neg hc2]
      show (s.render cw ch now).1.renders = s.renders + 1
      exact render_renders s cw ch now
    · rw [tick0_eq, if_neg hc2]
      show (s.render cw ch now).1.renders = s.renders + 1
      exact render_renders s cw ch now

/-- C2 witness: the zero branch evaluated at the concrete running state
(one second remaining, tick two seconds later): the remaining time is
clamped to 0, the schedule empties, and the plain-wrapper variant counts
one more render than the custom-element variant. -/
theorem C2_witness :
    (tick_witness_state.ts.remaining_seconds
      - (2000 - tick_witness_state.ts.prev_render_ms) / 1000 < 0) ∧
    TimerInv tick_witness_state ∧
    (tick_witness_state.tick 300 300 2000).ts.remaining_seconds = 0 ∧
    (tick_witness_state.tick 300 300 2000).sched.active = [] ∧
    (tick_witness_state.tick0 300 300 2000).renders = 2 := by
  have hc : tick_witness_state.ts.remaining_seconds
      - (2000 - tick_witness_state.ts.prev_render_ms) / 1000 < 0 := by
    show (1:ℝ) - (2000 - 0) / 1000 < 0
    norm_num
  have hI : TimerInv tick_witness_state := by
    refine ⟨by simp [tick_witness_state], ?_, ?_⟩
    · intro i hi
      simp only [tick_witness_state, List.mem_singleton] at hi ⊢
      rw [hi]
    · intro i hi
      simp only [tick_witness_state] at hi ⊢
      injection hi with hi
      omega
  have key := (C2_tick_behavior tick_witness_state 300 300 2000).1 hc
  exact ⟨hc, hI, key.1, key.2.2.1 hI, by rw [key.2.2.2.2.2]; rfl⟩

theorem render_clock_ops_length (b : Bool) (d : ℝ) :
    (render_clock_ops b d).length = 60 := by
  simp [render_clock_ops]

theorem five_lt_ops_length : (5:ℕ) < (render_clock_ops true 100).length := by
  rw [render_clock_ops_length]
  omega

theorem zero_lt_ops_length : (0:ℕ) < (render_clock_ops true 100).length := by
  rw [render_clock_ops_length]
  omega

/-- C6 counterexample: at mark index 5 (with the full-render flag on) the
numeral label displays 5 — the mark index itself, computed by the source
as (5 * 5) / 5 — not the mark index divided by 5, which would be 1. -/
theorem C6_counterexample :
    ((render_clock_ops true 100).get ⟨5, five_lt_ops_length⟩).label.map
        MarkLabel.value = some 5 ∧
    (5 : ℕ) / 5 = 1 ∧
    ((render_clock_ops true 100).get ⟨5, five_lt_ops_length⟩).label.map
        MarkLabel.value ≠ some ((5 : ℕ) / 5) := by
  have h : ((render_clock_ops true 100).get ⟨5, five_lt_ops_length⟩).label.map
      MarkLabel.value = some 5 := by
    simp [render_clock_ops, List.get_eq_getElem, List.getElem_map,
      List.getElem_range]
  exact ⟨h, by norm_num, by rw [h]; decide⟩

/-- C6 (amended): in the 60-mark clock-face pass, every mark whose index
is divisible by 5 is stroked with width 5 and all other marks with width
1; a numeral label accompanies exactly those 5th marks and only while
`needs_full_render` holds; the displayed value is the mark index itself,
since the source computes (i * 5) / 5 = i. -/
theorem C6_clock_face_marks (b : Bool) (d : ℝ) (i : ℕ)
    (h : i < (render_clock_ops b d).length) :
    ((render_clock_ops b d).get ⟨i, h⟩).line_width
      = (if i % 5 = 0 then 5 else 1) ∧
    (((render_clock_ops b d).get ⟨i, h⟩).label.isSome = true
      ↔ (b = true ∧ i % 5 = 0)) ∧
    (∀ l, ((render_clock_ops b d).get ⟨i, h⟩).label = some l → l.value = i) := by
  refine ⟨?_, ?_, ?_⟩
  · simp [render_clock_ops, List.get_eq_getElem, List.getElem_map,
      List.getElem_range]
  · simp only [render_clock_ops, List.get_eq_getElem, List.getElem_map,
      List.getElem_range]
    split_ifs with hcond
    · simp only [Option.isSome_some, true_iff]
      exact ⟨by simpa using hcond.1, hcond.2⟩
    · simp only [Option.isSome_none, Bool.false_eq_true, false_iff]
      intro hcontra
      exact hcond ⟨by simp [hcontra.1], hcontra.2⟩
  · intro l hl
    simp only [render_clock_ops, List.get_eq_getElem, List.getElem_map,
      List.getElem_range] at hl
    split_ifs at hl with hcond
    · injection hl with hl
      rw [← hl]
      show i * 5 / 5 = i
      omega

/-- C6 witness: evaluated at mark index 0 of a full render: the bound
0 < 60 holds and the stroke width there is 5. -/
theorem C6_witness :
    (0:ℕ) < (render_clock_ops true 100).length ∧
    ((render_clock_ops true 100).get ⟨0, zero_lt_ops_length⟩).line_width = 5 := by
  refine ⟨zero_lt_ops_length, ?_⟩
  have := (C6_clock_face_marks true 100 0 zero_lt_ops_length).1
  rw [this]
  norm_num

theorem setup_resolution_update (ts : TimerState) (cw ch : ℝ)
    (h : ts.width ≠ cw ∨ ts.height ≠ ch) :
    ts.setup_resolution cw ch
      = { ts with
          width := cw
          height := cw
          center := ⟨cw / 2, cw / 2⟩
          needs_full_render := true } := by
  unfold TimerState.setup_resolution
  rw [if_pos h]

theorem render_ops_of_square {s : Sys} (cw ch now : ℝ)
    (hsq : s.ts.width = s.ts.height) :
    (s.render cw ch now).2 = render_clock_ops s.ts.needs_full_render s.ts.height := by
  unfold Sys.render
  rw [if_neg (not_not_intro hsq)]

theorem render_of_resize {s : Sys} (cw ch now : ℝ)
    (hne : s.ts.width ≠ s.ts.height)
    (hg : s.ts.width ≠ cw ∨ s.ts.height ≠ ch) :
    (s.render cw ch now).2 = render_clock_ops true cw ∧
    (s.render cw ch now).1.ts.width = cw ∧
    (s.render cw ch now).1.ts.height = cw ∧
    (s.render cw ch now).1.ts.center = (⟨cw / 2, cw / 2⟩ : Coordinate) := by
  unfold Sys.render
  rw [if_pos hne, setup_resolution_update s.ts cw ch hg]
  exact ⟨rfl, rfl, rfl, rfl⟩

theorem second_render_fill_only {s : Sys} (cw ch now now2 : ℝ)
    (hne : s.ts.width ≠ s.ts.height)
    (hg : s.ts.width ≠ cw ∨ s.ts.height ≠ ch) :
    ((s.render cw ch now).1.render cw ch now2).2 = render_clock_ops false cw := by
  have h5 := render_of_resize cw ch now hne hg
  have hsq : (s.render cw ch now).1.ts.width
      = (s.render cw ch now).1.ts.height := by
    rw [h5.2.1, h5.2.2.1]
  rw [render_ops_of_square cw ch now2 hsq, render_flag, h5.2.2.1]

theorem labels_of_full (d : ℝ) :
    ∃ op ∈ render_clock_ops true d, op.label.isSome = true := by
  have h0 : (0:ℕ) < (render_clock_ops true d).length := by
    rw [render_clock_ops_length]
    omega
  refine ⟨(render_clock_ops true d).get ⟨0, h0⟩, List.get_mem _ 0 h0, ?_⟩
  simp [render_clock_ops, List.get_eq_getElem, List.getElem_map,
    List.getElem_range]

theorem labels_of_fill (d : ℝ) :
    ∀ op ∈ render_clock_ops false d, op.label = none := by
  intro op hop
  simp only [render_clock_ops, List.mem_map, List.mem_range] at hop
  obtain ⟨i, hi, rfl⟩ := hop
  simp

/-- C7 counterexample: the claim promises that a render that finds
width ≠ height recomputes the center from the client dimensions and
requests a full render, but the source only does so when the backing
store also differs from the client size: at backing store 100 × 50 with
client size 100 × 50, the render keeps the stale center (7, 9) instead of
(50, 50) and draws a fill-only face with no labels. -/
theorem C7_counterexample :
    resize_witness_state.ts.width ≠ resize_witness_state.ts.height ∧
    (resize_witness_state.render 100 50 0).2 = render_clock_ops false 50 ∧
    (resize_witness_state.render 100 50 0).1.ts.center = (⟨7, 9⟩ : Coordinate) ∧
    (⟨7, 9⟩ : Coordinate) ≠ (⟨50, 50⟩ : Coordinate) := by
  have hne : resize_witness_state.ts.width ≠ resize_witness_state.ts.height := by
    show (100:ℝ) ≠ 50
    norm_num
  have hg : ¬ (resize_witness_state.ts.width ≠ (100:ℝ)
      ∨ resize_witness_state.ts.height ≠ (50:ℝ)) := by
    push_neg
    exact ⟨rfl, rfl⟩
  refine ⟨hne, ?_, ?_, ?_⟩
  · show (resize_witness_state.render 100 50 0).2 = render_clock_ops false 50
    unfold Sys.render TimerState.setup_resolution
    rw [if_pos hne, if_neg hg]
    rfl
  · show (resize_witness_state.render 100 50 0).1.ts.center = (⟨7, 9⟩ : Coordinate)
    unfold Sys.render TimerState.setup_resolution
    rw [if_pos hne, if_neg hg]
    rfl
  · intro hcontra
    rw [Coordinate.mk.injEq] at hcontra
    norm_num at hcontra

/-- C7 (amended): `needs_full_render` is true after construction; a
render that finds width ≠ height runs the resolution setup, which — when
the backing-store size also differs from the client size, the source's
inner guard — recomputes center from the client dimensions (assigning
clientWidth to both width and height), clears the surface and requests a
full render; the flag is consumed by the one render pass (false
afterwards); the pass run with the flag set draws numeral labels while a
pass run with it clear draws none, so after such a resize the next render
draws labels and the one after that does not. -/
theorem C7_needs_full_render_lifecycle :
    (∀ w h now, (construct w h now).ts.needs_full_render = true) ∧
    (∀ (ts : TimerState) (cw ch : ℝ), ts.width ≠ cw ∨ ts.height ≠ ch →
      ts.setup_resolution cw ch
        = { ts with
            width := cw
            height := cw
            center := ⟨cw / 2, cw / 2⟩
            needs_full_render := true }) ∧
    (∀ (s : Sys) (cw ch now : ℝ),
      (s.render cw ch now).1.ts.needs_full_render = false) ∧
    (∀ (s : Sys) (cw ch now : ℝ), s.ts.width = s.ts.height →
      (s.render cw ch now).2
        = render_clock_ops s.ts.needs_full_render s.ts.height) ∧
    (∀ (s : Sys) (cw ch now : ℝ), s.ts.width ≠ s.ts.height →
      s.ts.width ≠ cw ∨ s.ts.height ≠ ch →
      (s.render cw ch now).2 = render_clock_ops true cw ∧
      (s.render cw ch now).1.ts.width = cw ∧
      (s.render cw ch now).1.ts.height = cw ∧
      (s.render cw ch now).1.ts.center = (⟨cw / 2, cw / 2⟩ : Coordinate)) ∧
    (∀ (s : Sys) (cw ch now now2 : ℝ), s.ts.width ≠ s.ts.height →
      s.ts.width ≠ cw ∨ s.ts.height ≠ ch →
      ((s.render cw ch now).1.render cw ch now2).2
        = render_clock_ops false cw) ∧
    (∀ d : ℝ, ∃ op ∈ render_clock_ops true d, op.label.isSome = true) ∧
    (∀ d : ℝ, ∀ op ∈ render_clock_ops false d, op.label = none) :=
  ⟨fun _ _ _ => rfl,
    setup_resolution_update,
    fun s cw ch now => render_flag s cw ch now,
    fun _ cw ch now hsq => render_ops_of_square cw ch now hsq,
    fun _ cw ch now hne hg => render_of_resize cw ch now hne hg,
    fun _ cw ch now now2 hne hg => second_render_fill_only cw ch now now2 hne hg,
    labels_of_full,
    labels_of_fill⟩

/-- C7 witness: evaluated at the concrete non-square state with client
size 200 × 50: both guards hold, the pass draws the full face with labels
and the center is recomputed to (100, 100). -/
theorem C7_witness :
    resize_witness_state.ts.width ≠ resize_witness_state.ts.height ∧
    (resize_witness_state.ts.width ≠ (200:ℝ)
      ∨ resize_witness_state.ts.height ≠ (50:ℝ)) ∧
    (resize_witness_state.render 200 50 0).2 = render_clock_ops true 200 ∧
    (resize_witness_state.render 200 50 0).1.ts.center
      = (⟨200 / 2, 200 / 2⟩ : Coordinate) := by
  have h1 : resize_witness_state.ts.width ≠ resize_witness_state.ts.height := by
    show (100:ℝ) ≠ 50
    norm_num
  have h2 : resize_witness_state.ts.width ≠ (200:ℝ)
      ∨ resize_witness_state.ts.height ≠ (50:ℝ) :=
    Or.inl (by show (100:ℝ) ≠ 200; norm_num)
  have key := C7_needs_full_render_lifecycle.2.2.2.2.1 resize_witness_state
    200 50 0 h1 h2
  exact ⟨h1, h2, key.1, key.2.2.2⟩

end

end Timer
